import Mathlib

/-!
Shallow embedding of the data layer of the `leapfrogg-mvp` repository
(`src/flask_server/models.py` and `src/config.py`).

The SQLAlchemy database state is modelled explicitly: a `DB` record holds the
rows of the `user` table, the `post` table and the `followers` association
table (a bare list of `(follower_id, followed_id)` pairs, since the table has
no uniqueness constraint).  Methods that read the database become functions
`DB → ...`; methods that write it return an updated `DB` (or `User`).
Python exceptions are modelled with `Except PyError`.
-/

namespace Leapfrogg

/-- Python exceptions that the modelled code paths can raise. -/
inductive PyError where
  | valueError
  | attributeError
deriving DecidableEq

/-- A row of the `user` table (`class User` in `models.py`).
`password_hash` is a nullable column, hence `Option`. -/
structure User where
  id : Int
  username : String
  email : String
  about_me : String
  last_seen : Int
  password_hash : Option String
  poster : Bool
deriving DecidableEq

/-- A row of the `post` table (`class Post` in `models.py`).
Timestamps are modelled as integers (ordered like `datetime`). -/
structure Post where
  id : Int
  url : String
  body : String
  timestamp : Int
  user_id : Int
deriving DecidableEq

/-- The database state: the three tables declared in `models.py`.
`followers` is the association table `db.Table("followers", ...)`, a plain
list of `(follower_id, followed_id)` rows with no uniqueness constraint. -/
structure DB where
  users : List User
  posts : List Post
  followers : List (Int × Int)
deriving DecidableEq

/-! ## Password hashing (werkzeug.security)

Modelled from the library: `generate_password_hash` produces a salted string
`method$salt$hash`; `check_password_hash` re-derives the hash from the stored
salt and the candidate plaintext and compares, so two calls match exactly when
the plaintexts are equal (hash collisions are ignored).  The salted digest is
abstracted to a deterministic tag of the plaintext. -/

def generate_password_hash (password : String) : String :=
  "pbkdf2:sha256$salt$" ++ password

/-- Modelled from the library: `check_password_hash(pwhash, password)` calls
string methods on `pwhash` (`pwhash.split("$", 2)`); when the stored hash is
Python `None` — the value of an unset nullable column — that attribute access
raises `AttributeError` instead of returning `False`. -/
def check_password_hash (pwhash : Option String) (password : String) :
    Except PyError Bool :=
  match pwhash with
  | none => .error .attributeError
  | some h => .ok (h == generate_password_hash password)

/-- `User.set_password`: `self.password_hash = generate_password_hash(password)`. -/
def User.set_password (u : User) (password : String) : User :=
  { u with password_hash := some (generate_password_hash password) }

/-- `User.check_password`: `return check_password_hash(self.password_hash, password)`. -/
def User.check_password (u : User) (password : String) : Except PyError Bool :=
  check_password_hash u.password_hash password

/-! ## Social graph -/

/-- Rows of the `followers` table matching a given `(follower_id, followed_id)` pair. -/
def matchingEdges (l : List (Int × Int)) (a b : Int) : List (Int × Int) :=
  l.filter (fun e => e.1 == a && e.2 == b)

/-- Number of `(a, b)` rows in the edge table of `st`. -/
def edgeCount (st : DB) (a b : Int) : Nat :=
  (matchingEdges st.followers a b).length

/-- The count computed by `self.followed.filter(followers.c.followed_id == user.id).count()`:
the `followed` relationship joins the `followers` table with the `user` table on
`followers.c.followed_id == User.id` (the `secondaryjoin`), restricted to rows with
`follower_id == self.id` (the `primaryjoin`), then filtered on `followed_id == user.id`.
The inner join contributes one row per edge whose followed side exists in the user table. -/
def followedRelCount (st : DB) (selfId otherId : Int) : Nat :=
  (st.followers.filter
    (fun e => e.1 == selfId && e.2 == otherId
      && st.users.any (fun u => u.id == e.2))).length

/-- `User.is_following`:
`return self.followed.filter(followers.c.followed_id == user.id).count() == 1`. -/
def User.is_following (st : DB) (self other : User) : Bool :=
  followedRelCount st self.id other.id == 1

/-- `User.follow`: `if not self.is_following(user): self.followed.append(user)` —
appending to the relationship inserts one `(self.id, user.id)` row. -/
def User.follow (st : DB) (self other : User) : DB :=
  if User.is_following st self other then st
  else { st with followers := st.followers ++ [(self.id, other.id)] }

/-- `User.unfollow`: `if self.is_following(user): self.followed.remove(user)` —
removing from the relationship deletes the `(self.id, user.id)` association rows. -/
def User.unfollow (st : DB) (self other : User) : DB :=
  if User.is_following st self other then
    { st with followers :=
        st.followers.filter (fun e => !(e.1 == self.id && e.2 == other.id)) }
  else st

/-- `User.followed_users`: joins `Post` with `followers` on
`followers.c.followed_id == Post.user_id`, filters `followers.c.follower_id == self.id`,
then resolves each post to `User.query.filter_by(id=post.user_id).first()` and
collects the results into a set (modelled as a deduplicated list; the foreign key
guarantees `first()` finds the author, so the `None` case of `first()` is dropped). -/
def User.followed_users (st : DB) (self : User) : List User :=
  let followedPosts := st.posts.filter
    (fun p => st.followers.any (fun e => e.2 == p.user_id && e.1 == self.id))
  (followedPosts.filterMap
    (fun p => st.users.find? (fun u => u.id == p.user_id))).dedup

/-- `User.followers` (the method): symmetric to `followed_users`, joining on
`followers.c.follower_id == Post.user_id` and filtering
`followers.c.followed_id == self.id`. -/
def User.followersOf (st : DB) (self : User) : List User :=
  let followerPosts := st.posts.filter
    (fun p => st.followers.any (fun e => e.1 == p.user_id && e.2 == self.id))
  (followerPosts.filterMap
    (fun p => st.users.find? (fun u => u.id == p.user_id))).dedup

/-! ## The feed query -/

/-- `Post.timestamp.desc()` order: `p` comes no later than `q` in the output when
`p`'s timestamp is at least `q`'s. -/
def postDesc (p q : Post) : Prop := q.timestamp ≤ p.timestamp

instance : DecidableRel postDesc :=
  fun p q => inferInstanceAs (Decidable (q.timestamp ≤ p.timestamp))

instance : IsTotal Post postDesc := ⟨fun p q => le_total q.timestamp p.timestamp⟩

instance : IsTrans Post postDesc := ⟨fun _ _ _ hab hbc => le_trans hbc hab⟩

/-- `User.followed_posts`:
`followed = Post.query.join(followers, followers.c.followed_id == Post.user_id)`
`            .filter(followers.c.follower_id == self.id)`;
`own = Post.query.filter_by(user_id=self.id)`;
`return followed.union(own).order_by(Post.timestamp.desc())` —
SQL `UNION` deduplicates rows, then the result is ordered by timestamp
descending (ties resolved arbitrarily by the store; here by sort stability). -/
def User.followed_posts (st : DB) (self : User) : List Post :=
  let followed := st.posts.filter
    (fun p => st.followers.any (fun e => e.2 == p.user_id && e.1 == self.id))
  let own := st.posts.filter (fun p => p.user_id == self.id)
  List.insertionSort postDesc ((followed ++ own).dedup)

/-! ## Session resolution (`load_user`) -/

/-- ASCII whitespace stripped by Python's `int(str)` before parsing. -/
def isPySpace (c : Char) : Bool :=
  c == ' ' || c == '\t' || c == '\n' || c == '\r'

/-- No two adjacent underscores (Python integer literals allow single
underscores between digits only). -/
def noDoubleUnderscore : List Char → Bool
  | [] => true
  | [_] => true
  | a :: b :: rest => !(a == '_' && b == '_') && noDoubleUnderscore (b :: rest)

/-- Decimal value of a digit string (underscores already removed). -/
def digitsVal (l : List Char) : Nat :=
  l.foldl (fun acc c => 10 * acc + (c.toNat - 48)) 0

/-- Modelled after Python's built-in `int(str)` on ASCII strings: strip
whitespace, accept an optional sign followed by a nonempty run of decimal
digits with optional single underscores between digits; anything else raises
`ValueError`. -/
def pyInt (s : String) : Except PyError Int :=
  let t := ((s.data.dropWhile isPySpace).reverse.dropWhile isPySpace).reverse
  let signBody : Int × List Char :=
    match t with
    | '+' :: rest => (1, rest)
    | '-' :: rest => (-1, rest)
    | _ => (1, t)
  let body := signBody.2
  if !body.isEmpty
      && body.all (fun c => c.isDigit || c == '_')
      && !(body.head? == some '_')
      && !(body.getLast? == some '_')
      && noDoubleUnderscore body then
    .ok (signBody.1 * (digitsVal (body.filter Char.isDigit) : Int))
  else
    .error .valueError

/-! ## Avatar URLs (hashlib.md5 + gravatar)

`User.avatar` hashes the lowercased email with MD5 and formats a gravatar URL.
MD5 is implemented below from RFC 1321, over byte lists with `Nat` arithmetic
modulo `2 ^ 32`. -/

/-- UTF-8 encoding of one character (`str.encode("utf-8")`, per code point). -/
def utf8EncodeChar (c : Char) : List Nat :=
  let n := c.toNat
  if n < 0x80 then [n]
  else if n < 0x800 then [0xC0 + n / 64, 0x80 + n % 64]
  else if n < 0x10000 then [0xE0 + n / 4096, 0x80 + n / 64 % 64, 0x80 + n % 64]
  else [0xF0 + n / 262144, 0x80 + n / 4096 % 64, 0x80 + n / 64 % 64, 0x80 + n % 64]

/-- Bytes of the UTF-8 encoding of a string. -/
def strBytes (s : String) : List Nat :=
  s.data.flatMap utf8EncodeChar

/-- The 64 MD5 sine-derived round constants `K[i] = floor(2^32 * abs(sin(i+1)))`. -/
def md5K : List Nat :=
  [0xd76aa478, 0xe8c7b756, 0x242070db, 0xc1bdceee,
   0xf57c0faf, 0x4787c62a, 0xa8304613, 0xfd469501,
   0x698098d8, 0x8b44f7af, 0xffff5bb1, 0x895cd7be,
   0x6b901122, 0xfd987193, 0xa679438e, 0x49b40821,
   0xf61e2562, 0xc040b340, 0x265e5a51, 0xe9b6c7aa,
   0xd62f105d, 0x02441453, 0xd8a1e681, 0xe7d3fbc8,
   0x21e1cde6, 0xc33707d6, 0xf4d50d87, 0x455a14ed,
   0xa9e3e905, 0xfcefa3f8, 0x676f02d9, 0x8d2a4c8a,
   0xfffa3942, 0x8771f681, 0x6d9d6122, 0xfde5380c,
   0xa4beea44, 0x4bdecfa9, 0xf6bb4b60, 0xbebfbc70,
   0x289b7ec6, 0xeaa127fa, 0xd4ef3085, 0x04881d05,
   0xd9d4d039, 0xe6db99e5, 0x1fa27cf8, 0xc4ac5665,
   0xf4292244, 0x432aff97, 0xab9423a7, 0xfc93a039,
   0x655b59c3, 0x8f0ccc92, 0xffeff47d, 0x85845dd1,
   0x6fa87e4f, 0xfe2ce6e0, 0xa3014314, 0x4e0811a1,
   0xf7537e82, 0xbd3af235, 0x2ad7d2bb, 0xeb86d391]

/-- The 64 per-round left-rotation amounts of MD5. -/
def md5S : List Nat :=
  [7, 12, 17, 22, 7, 12, 17, 22, 7, 12, 17, 22, 7, 12, 17, 22,
   5, 9, 14, 20, 5, 9, 14, 20, 5, 9, 14, 20, 5, 9, 14, 20,
   4, 11, 16, 23, 4, 11, 16, 23, 4, 11, 16, 23, 4, 11, 16, 23,
   6, 10, 15, 21, 6, 10, 15, 21, 6, 10, 15, 21, 6, 10, 15, 21]

/-- 32-bit left rotation on `Nat` (inputs below `2 ^ 32`). -/
def rotl32 (x s : Nat) : Nat :=
  (x * 2 ^ s + x / 2 ^ (32 - s)) % 2 ^ 32

/-- 32-bit bitwise complement. -/
def not32 (x : Nat) : Nat := 0xFFFFFFFF - x

/-- Little-endian byte decomposition, `k` bytes. -/
def leBytes : Nat → Nat → List Nat
  | 0, _ => []
  | k + 1, n => (n % 256) :: leBytes k (n / 256)

/-- MD5 padding: a `0x80` byte, zeros to 56 mod 64, then the bit length as
eight little-endian bytes. -/
def md5Pad (msg : List Nat) : List Nat :=
  let zeros := (56 + 64 - (msg.length + 1) % 64) % 64
  msg ++ [0x80] ++ List.replicate zeros 0 ++ leBytes 8 ((8 * msg.length) % 2 ^ 64)

/-- Split a byte list into 64-byte blocks (the input length is a multiple of 64). -/
def chunks64 (l : List Nat) : List (List Nat) :=
  if h : l = [] then []
  else l.take 64 :: chunks64 (l.drop 64)
termination_by l.length
decreasing_by
  simp only [List.length_drop]
  have := List.length_pos.mpr h
  omega

/-- The `j`-th little-endian 32-bit word of a 64-byte block. -/
def wordAt (block : List Nat) (j : Nat) : Nat :=
  block.getD (4 * j) 0 + 256 * block.getD (4 * j + 1) 0
    + 65536 * block.getD (4 * j + 2) 0 + 16777216 * block.getD (4 * j + 3) 0

/-- One of the 64 MD5 rounds, RFC 1321 section 3.4. -/
def md5Round (M : Nat → Nat) (st : Nat × Nat × Nat × Nat) (i : Nat) :
    Nat × Nat × Nat × Nat :=
  let a := st.1
  let b := st.2.1
  let c := st.2.2.1
  let d := st.2.2.2
  let f :=
    if i < 16 then (b &&& c) ||| (not32 b &&& d)
    else if i < 32 then (d &&& b) ||| (not32 d &&& c)
    else if i < 48 then b ^^^ c ^^^ d
    else c ^^^ (b ||| not32 d)
  let g :=
    if i < 16 then i
    else if i < 32 then (5 * i + 1) % 16
    else if i < 48 then (3 * i + 5) % 16
    else (7 * i) % 16
  let f2 := (f + a + md5K.getD i 0 + M g) % 2 ^ 32
  (d, (b + rotl32 f2 (md5S.getD i 0)) % 2 ^ 32, b, c)

/-- Process one 64-byte block into the running MD5 state. -/
def md5Block (st : Nat × Nat × Nat × Nat) (block : List Nat) :
    Nat × Nat × Nat × Nat :=
  let r := (List.range 64).foldl (md5Round (wordAt block)) st
  ((st.1 + r.1) % 2 ^ 32, (st.2.1 + r.2.1) % 2 ^ 32,
   (st.2.2.1 + r.2.2.1) % 2 ^ 32, (st.2.2.2 + r.2.2.2) % 2 ^ 32)

/-- The 16 digest bytes of the MD5 of a byte sequence. -/
def md5Digest (msg : List Nat) : List Nat :=
  let r := (chunks64 (md5Pad msg)).foldl md5Block
    (0x67452301, 0xefcdab89, 0x98badcfe, 0x10325476)
  leBytes 4 r.1 ++ leBytes 4 r.2.1 ++ leBytes 4 r.2.2.1 ++ leBytes 4 r.2.2.2

/-- Lowercase hexadecimal digit. -/
def hexDigit (n : Nat) : Char :=
  if n < 10 then Char.ofNat (48 + n) else Char.ofNat (87 + n)

/-- Lowercase hex string of a byte list (`hexdigest()`). -/
def bytesToHex (l : List Nat) : String :=
  String.mk (l.flatMap (fun b => [hexDigit (b / 16 % 16), hexDigit (b % 16)]))

/-- Modelled after Python `str.lower()` on its ASCII fragment: lowercase each
character. -/
def pyLower (s : String) : String :=
  String.mk (s.data.map Char.toLower)

/-- `User.avatar`:
`digest = md5(self.email.lower().encode("utf-8")).hexdigest()` then
`"https://www.gravatar.com/avatar/{digest}?d=identicon&s={size}"`. -/
def User.avatar (u : User) (size : Nat) : String :=
  "https://www.gravatar.com/avatar/"
    ++ bytesToHex (md5Digest (strBytes (pyLower u.email)))
    ++ "?d=identicon&s=" ++ toString size

/-- `load_user(id)`: `return User.query.get(int(id))` — `int(id)` raises
`ValueError` on a non-numeric string, and that exception propagates; otherwise
`query.get` is a primary-key lookup returning the user or `None`. -/
def load_user (st : DB) (s : String) : Except PyError (Option User) :=
  (pyInt s).map (fun n => st.users.find? (fun u => u.id == n))

/-! ## Case-insensitive string comparison (for the avatar property) -/

/-- Character lists agreeing pointwise after lowercasing (same length). -/
def eqUpToCaseL : List Char → List Char → Bool
  | [], [] => true
  | c :: cs, d :: ds => (Char.toLower c == Char.toLower d) && eqUpToCaseL cs ds
  | _, _ => false

/-- Two strings differ only in letter case: equal length and corresponding
characters agree after lowercasing. -/
def eqUpToCase (a b : String) : Bool :=
  eqUpToCaseL a.data b.data

/-! ## Concrete fixtures used by counterexamples and witnesses -/

def alice : User := ⟨1, "alice", "alice@example.com", "", 0, none, false⟩

def bob : User := ⟨2, "bob", "bob@example.com", "", 0, none, false⟩

def carol : User := ⟨3, "carol", "carol@example.com", "", 0, some "stored", false⟩

def dana : User := ⟨4, "dana", "Dana@Example.COM", "", 0, none, false⟩

def dana2 : User := ⟨5, "dana2", "dana@example.com", "", 0, none, false⟩

/-- Alice and Bob, no posts, no follow edges. -/
def dbNoEdges : DB := ⟨[alice, bob], [], []⟩

/-- Only Alice, no posts, no edges. -/
def dbSolo : DB := ⟨[alice], [], []⟩

/-- Alice and Bob with a duplicated `(1, 2)` follow edge. -/
def dbDup : DB := ⟨[alice, bob], [], [(1, 2), (1, 2)]⟩

/-- Alice and Bob with a single `(1, 2)` follow edge. -/
def dbOneEdge : DB := ⟨[alice, bob], [], [(1, 2)]⟩

/-- A post by Alice and a later post by Bob; Alice follows Bob. -/
def pA : Post := ⟨1, "a", "", 3, 1⟩

def pB : Post := ⟨2, "b", "", 5, 2⟩

def dbFeed : DB := ⟨[alice, bob], [pA, pB], [(1, 2)]⟩

/-- Alice follows herself and has one post. -/
def pSelf : Post := ⟨3, "s", "", 10, 1⟩

def dbSelf : DB := ⟨[alice], [pSelf], [(1, 1)]⟩

/-! ## Helper lemmas -/

/-- Membership in the feed: a post is in `followed_posts` exactly when it is a
post of the caller or of someone the caller has a follow edge to. -/
theorem mem_followed_posts (st : DB) (u : User) (p : Post) :
    p ∈ User.followed_posts st u ↔
      p ∈ st.posts ∧ (p.user_id = u.id ∨
        ∃ e ∈ st.followers, e.1 = u.id ∧ e.2 = p.user_id) := by
  unfold User.followed_posts
  simp only [List.mem_insertionSort, List.mem_dedup, List.mem_append,
    List.mem_filter, List.any_eq_true, Bool.and_eq_true, beq_iff_eq]
  constructor
  · rintro (⟨hp, e, he, h2, h1⟩ | ⟨hp, hown⟩)
    · exact ⟨hp, Or.inr ⟨e, he, h1, h2⟩⟩
    · exact ⟨hp, Or.inl hown⟩
  · rintro ⟨hp, hown | ⟨e, he, h1, h2⟩⟩
    · exact Or.inr ⟨hp, hown⟩
    · exact Or.inl ⟨hp, e, he, h2, h1⟩

/-- The feed is sorted by timestamp descending. -/
theorem sorted_followed_posts (st : DB) (u : User) :
    List.Sorted postDesc (User.followed_posts st u) := by
  unfold User.followed_posts
  exact List.sorted_insertionSort postDesc _

/-- The feed has no duplicate rows (SQL `UNION` semantics). -/
theorem nodup_followed_posts (st : DB) (u : User) :
    (User.followed_posts st u).Nodup := by
  unfold User.followed_posts
  exact ((List.perm_insertionSort postDesc _).nodup_iff).mpr (List.nodup_dedup _)

/-- When the followed user exists in the user table, the relationship count of
`is_following` agrees with the raw edge-table count. -/
theorem followedRelCount_eq_edgeCount (st : DB) (a b : Int)
    (hb : st.users.any (fun u => u.id == b) = true) :
    followedRelCount st a b = edgeCount st a b := by
  unfold followedRelCount edgeCount matchingEdges
  refine congrArg List.length (List.filter_congr ?_)
  intro e _
  by_cases h2 : e.2 = b
  · have hany : st.users.any (fun u => u.id == e.2) = true := by rw [h2]; exact hb
    simp [hany]
  · simp [h2]

/-- The relationship count never exceeds the raw edge-table count. -/
theorem followedRelCount_le_edgeCount (st : DB) (a b : Int) :
    followedRelCount st a b ≤ edgeCount st a b := by
  unfold followedRelCount edgeCount matchingEdges
  induction st.followers with
  | nil => simp
  | cons e l ih =>
    simp only [List.filter_cons]
    by_cases h1 : (e.1 == a && e.2 == b) = true
    · by_cases h2 : (st.users.any (fun u => u.id == e.2)) = true
      · simp [h1, h2]; omega
      · simp [h1, h2]; omega
    · simp [h1]; omega

/-- `follow` is the identity when `is_following` holds. -/
theorem follow_eq_self {st : DB} {a b : User} (h : User.is_following st a b = true) :
    User.follow st a b = st := by
  simp [User.follow, h]

/-- `follow` appends one `(a.id, b.id)` row when `is_following` fails. -/
theorem follow_eq_append {st : DB} {a b : User} (h : User.is_following st a b = false) :
    User.follow st a b =
      { st with followers := st.followers ++ [(a.id, b.id)] } := by
  simp [User.follow, h]

/-- `unfollow` is the identity when `is_following` fails. -/
theorem unfollow_eq_self {st : DB} {a b : User} (h : User.is_following st a b = false) :
    User.unfollow st a b = st := by
  simp [User.unfollow, h]

/-- `unfollow` deletes the matching rows when `is_following` holds. -/
theorem unfollow_eq_remove {st : DB} {a b : User} (h : User.is_following st a b = true) :
    User.unfollow st a b =
      { st with followers := st.followers.filter (fun e => !(e.1 == a.id && e.2 == b.id)) } := by
  simp [User.unfollow, h]

/-- Pointwise lowercase agreement gives equal lowercased lists. -/
theorem eqUpToCaseL_map {l1 l2 : List Char} (h : eqUpToCaseL l1 l2 = true) :
    l1.map Char.toLower = l2.map Char.toLower := by
  induction l1 generalizing l2 with
  | nil => cases l2 with
    | nil => rfl
    | cons d ds => simp [eqUpToCaseL] at h
  | cons c cs ih =>
    cases l2 with
    | nil => simp [eqUpToCaseL] at h
    | cons d ds =>
      simp only [eqUpToCaseL, Bool.and_eq_true, beq_iff_eq] at h
      simp [h.1, ih h.2]

/-! ## Claims -/

/-- C1: after `A.follow(B)` the predicate `A.is_following(B)` holds, but `B` is
absent from `A.followed_users()` when `B` has authored no posts — the method
derives followees through a join against the post table, so followees without
posts are silently dropped. -/
theorem follow_then_followed_users_misses_postless :
    User.is_following (User.follow dbNoEdges alice bob) alice bob = true ∧
    bob ∉ User.followed_users (User.follow dbNoEdges alice bob) alice := by
  decide

/-- C2: `followed_posts` is exactly the union of the posts of followed users
and the caller's own posts — as a deduplicated set, sorted by timestamp
descending — and with no follow edges it is exactly the caller's own posts,
newest first. -/
theorem followed_posts_is_sorted_union (st : DB) (u : User) :
    List.Sorted postDesc (User.followed_posts st u) ∧
    (User.followed_posts st u).Nodup ∧
    (∀ p : Post, p ∈ User.followed_posts st u ↔
      p ∈ st.posts ∧ (p.user_id = u.id ∨
        ∃ e ∈ st.followers, e.1 = u.id ∧ e.2 = p.user_id)) ∧
    ((∀ e ∈ st.followers, e.1 ≠ u.id) →
      ∀ p : Post, p ∈ User.followed_posts st u ↔ p ∈ st.posts ∧ p.user_id = u.id) := by
  refine ⟨sorted_followed_posts st u, nodup_followed_posts st u,
    fun p => mem_followed_posts st u p, ?_⟩
  intro hno p
  rw [mem_followed_posts st u p]
  constructor
  · rintro ⟨hp, hown | ⟨e, he, h1, _⟩⟩
    · exact ⟨hp, hown⟩
    · exact absurd h1 (hno e he)
  · rintro ⟨hp, hown⟩
    exact ⟨hp, Or.inl hown⟩

theorem followed_posts_is_sorted_union_witness :
    pB ∈ User.followed_posts dbFeed alice ∧
    List.Sorted postDesc (User.followed_posts dbFeed alice) :=
  ⟨((followed_posts_is_sorted_union dbFeed alice).2.2.1 pB).mpr (by decide),
   (followed_posts_is_sorted_union dbFeed alice).1⟩

/-- C3 counterexample: `load_user` on the non-numeric identifier `"abc"`
raises `ValueError` (from `int(id)`) instead of yielding a "no user" result. -/
theorem load_user_nonnumeric_raises :
    load_user dbNoEdges "abc" = Except.error PyError.valueError ∧
    ∀ o : Option User, load_user dbNoEdges "abc" ≠ Except.ok o := by
  refine ⟨rfl, ?_⟩
  intro o h
  rw [show load_user dbNoEdges "abc" = Except.error PyError.valueError from rfl] at h
  exact Except.noConfusion h

/-- C3 amended: on an identifier that parses as an integer naming no existing
user, `load_user` yields `none`; on a non-numeric identifier it propagates the
`ValueError` raised by `int(id)` rather than yielding "no user". -/
theorem load_user_unknown_none_nonnumeric_raises (st : DB) (s : String) :
    (∀ n : Int, pyInt s = Except.ok n → (∀ u ∈ st.users, u.id ≠ n) →
       load_user st s = Except.ok none) ∧
    (∀ e : PyError, pyInt s = Except.error e → load_user st s = Except.error e) := by
  constructor
  · intro n hn hnone
    unfold load_user
    rw [hn]
    show Except.ok (st.users.find? (fun u => u.id == n)) = Except.ok none
    rw [List.find?_eq_none.mpr (fun u hu => by simp [hnone u hu])]
  · intro e he
    unfold load_user
    rw [he]
    rfl

theorem load_user_unknown_none_nonnumeric_raises_witness :
    load_user dbSolo "7" = Except.ok none :=
  (load_user_unknown_none_nonnumeric_raises dbSolo "7").1 7 (by rfl) (by decide)

/-- C4 counterexample: on a user whose password hash was never set
(`password_hash` is `None`), `check_password` raises `AttributeError` instead
of returning false. -/
theorem check_password_unset_hash_raises :
    User.check_password alice "secret" = Except.error PyError.attributeError := rfl

/-- C4 amended: when a hash is set, `check_password` returns false — without
raising — on any input whose hash does not match; when the hash is absent it
raises `AttributeError` rather than returning false. -/
theorem check_password_mismatch_is_false (u : User) (p : String) :
    (u.password_hash = none →
       User.check_password u p = Except.error PyError.attributeError) ∧
    (∀ h, u.password_hash = some h → h ≠ generate_password_hash p →
       User.check_password u p = Except.ok false) := by
  constructor
  · intro h0
    simp [User.check_password, h0, check_password_hash]
  · intro h hh hne
    simp [User.check_password, hh, check_password_hash, hne]

theorem check_password_mismatch_is_false_witness :
    User.check_password carol "guess" = Except.ok false :=
  (check_password_mismatch_is_false carol "guess").2 "stored" rfl (by decide)

/-- C5: `is_following` tests `count == 1` on the relationship, so (when the
followed user exists in the user table) it is true exactly when the edge table
holds exactly one `(A.id, B.id)` row, and false when duplicates exist. -/
theorem is_following_iff_exactly_one_edge (st : DB) (a b : User)
    (hb : ∃ u ∈ st.users, u.id = b.id) :
    (User.is_following st a b = true ↔ edgeCount st a.id b.id = 1) ∧
    (2 ≤ edgeCount st a.id b.id → User.is_following st a b = false) := by
  have hb2 : st.users.any (fun u => u.id == b.id) = true := by
    rcases hb with ⟨u, hu, h⟩
    exact List.any_eq_true.mpr ⟨u, hu, by simp [h]⟩
  have hcnt := followedRelCount_eq_edgeCount st a.id b.id hb2
  unfold User.is_following
  rw [hcnt]
  constructor
  · simp
  · intro h
    simp only [beq_eq_false_iff_ne, ne_eq]
    omega

theorem is_following_iff_exactly_one_edge_witness :
    User.is_following dbDup alice bob = false ∧ edgeCount dbDup alice.id bob.id = 2 :=
  ⟨(is_following_iff_exactly_one_edge dbDup alice bob (by decide)).2 (by decide),
   by decide⟩

/-- C6: `follow` is idempotent — from a state with no `(A.id, B.id)` edge, two
successive calls leave exactly one edge; a call made when the edge already
exists inserts nothing and returns the state unchanged. -/
theorem follow_is_idempotent (st : DB) (a b : User)
    (hb : ∃ u ∈ st.users, u.id = b.id) :
    (edgeCount st a.id b.id = 0 →
       edgeCount (User.follow (User.follow st a b) a b) a.id b.id = 1) ∧
    (edgeCount st a.id b.id = 1 → User.follow st a b = st) := by
  have hb2 : st.users.any (fun u => u.id == b.id) = true := by
    rcases hb with ⟨u, hu, h⟩
    exact List.any_eq_true.mpr ⟨u, hu, by simp [h]⟩
  have hcnt := followedRelCount_eq_edgeCount st a.id b.id hb2
  constructor
  · intro h0
    have hnf : User.is_following st a b = false := by
      simp [User.is_following, hcnt, h0]
    have hst1 := follow_eq_append hnf
    have he1 : edgeCount (User.follow st a b) a.id b.id = 1 := by
      rw [hst1]
      unfold edgeCount matchingEdges at h0 ⊢
      simp only [List.filter_append, List.length_append, h0]
      simp
    have hb2p : (User.follow st a b).users.any (fun u => u.id == b.id) = true := by
      rw [hst1]; exact hb2
    have hcnt2 := followedRelCount_eq_edgeCount (User.follow st a b) a.id b.id hb2p
    have hf2 : User.is_following (User.follow st a b) a b = true := by
      simp [User.is_following, hcnt2, he1]
    rw [follow_eq_self hf2, he1]
  · intro h1
    have hf : User.is_following st a b = true := by
      simp [User.is_following, hcnt, h1]
    exact follow_eq_self hf

theorem follow_is_idempotent_witness :
    edgeCount (User.follow (User.follow dbNoEdges alice bob) alice bob) alice.id bob.id = 1 :=
  (follow_is_idempotent dbNoEdges alice bob (by decide)).1 (by decide)

/-- C7: `unfollow` is idempotent — when exactly the one `(A.id, B.id)` edge is
present it removes it (and touches nothing else), and when `A` is not
following `B` it is a no-op returning the state unchanged. -/
theorem unfollow_is_idempotent (st : DB) (a b : User) :
    ((∃ u ∈ st.users, u.id = b.id) → edgeCount st a.id b.id = 1 →
       edgeCount (User.unfollow st a b) a.id b.id = 0 ∧
       (∀ e, e ∈ (User.unfollow st a b).followers ↔
         e ∈ st.followers ∧ e ≠ (a.id, b.id)) ∧
       (User.unfollow st a b).users = st.users ∧
       (User.unfollow st a b).posts = st.posts) ∧
    (User.is_following st a b = false → User.unfollow st a b = st) := by
  constructor
  · intro hb h1
    have hb2 : st.users.any (fun u => u.id == b.id) = true := by
      rcases hb with ⟨u, hu, h⟩
      exact List.any_eq_true.mpr ⟨u, hu, by simp [h]⟩
    have hcnt := followedRelCount_eq_edgeCount st a.id b.id hb2
    have hf : User.is_following st a b = true := by
      simp [User.is_following, hcnt, h1]
    have hst := unfollow_eq_remove hf
    have hkey : ∀ e : Int × Int, (!(e.1 == a.id && e.2 == b.id)) = true ↔ e ≠ (a.id, b.id) := by
      intro e
      cases e with
      | mk x y =>
        simp only [Bool.not_eq_true', Bool.and_eq_false_iff, beq_eq_false_iff_ne,
          ne_eq, Prod.mk.injEq, not_and]
        tauto
    refine ⟨?_, ?_, by rw [hst], by rw [hst]⟩
    · rw [hst]
      unfold edgeCount matchingEdges
      simp [List.filter_filter, Bool.and_not_self]
    · intro e
      rw [hst]
      simp only [List.mem_filter]
      rw [hkey e]
  · intro hnf
    exact unfollow_eq_self hnf

theorem unfollow_is_idempotent_witness :
    edgeCount (User.unfollow dbOneEdge alice bob) alice.id bob.id = 0 ∧
    User.unfollow dbNoEdges alice bob = dbNoEdges :=
  ⟨((unfollow_is_idempotent dbOneEdge alice bob).1 (by decide) (by decide)).1,
   (unfollow_is_idempotent dbNoEdges alice bob).2 (by decide)⟩

/-- C8 counterexample: on a freshly created user (no password ever set, hash
`None`), `check_password` raises `AttributeError` instead of returning false. -/
theorem fresh_user_check_password_raises :
    User.check_password bob "anything" = Except.error PyError.attributeError := rfl

/-- C8 amended: immediately after `set_password(p)`, `check_password(p)`
returns true; before any password has been set (hash absent), `check_password`
raises `AttributeError` rather than returning false. -/
theorem set_password_then_check_password (u : User) (p q : String) :
    User.check_password (User.set_password u p) p = Except.ok true ∧
    (u.password_hash = none →
       User.check_password u q = Except.error PyError.attributeError) := by
  constructor
  · simp [User.check_password, User.set_password, check_password_hash]
  · intro h0
    simp [User.check_password, h0, check_password_hash]

theorem set_password_then_check_password_witness :
    User.check_password (User.set_password alice "hunter2") "hunter2" = Except.ok true ∧
    User.check_password alice "hunter2" = Except.error PyError.attributeError :=
  ⟨(set_password_then_check_password alice "hunter2" "hunter2").1,
   (set_password_then_check_password alice "hunter2" "hunter2").2 rfl⟩

/-- C9: `avatar` is a deterministic pure function of `(email, size)` — equal
emails and sizes give equal URLs — and emails differing only in letter case
give the same URL, since the hash is taken over the lowercased email. -/
theorem avatar_deterministic (u v : User) (s1 s2 : Nat) :
    (u.email = v.email → s1 = s2 → User.avatar u s1 = User.avatar v s2) ∧
    (eqUpToCase u.email v.email = true → s1 = s2 →
       User.avatar u s1 = User.avatar v s2) := by
  constructor
  · intro he hs
    simp [User.avatar, he, hs]
  · intro he hs
    subst hs
    have hl : pyLower u.email = pyLower v.email :=
      congrArg String.mk (eqUpToCaseL_map he)
    simp [User.avatar, pyLower] at hl ⊢
    rw [show u.email.data.map Char.toLower = v.email.data.map Char.toLower from
      eqUpToCaseL_map he]

theorem avatar_deterministic_witness :
    User.avatar dana 128 = User.avatar dana2 128 :=
  (avatar_deterministic dana dana2 128 128).2 (by decide) rfl

/-- C10: for a user with a self-follow edge — which `follow` does not prevent
creating — `followed_posts` lists each of the user's own posts exactly once:
the SQL `UNION` deduplicates the overlap of the followed branch and the own
branch. -/
theorem self_follow_feed_counts_own_posts_once (st : DB) (u : User) :
    ((u.id, u.id) ∈ st.followers →
       ∀ p ∈ st.posts, p.user_id = u.id →
         (User.followed_posts st u).count p = 1) ∧
    (edgeCount st u.id u.id = 0 →
       (u.id, u.id) ∈ (User.follow st u u).followers) := by
  constructor
  · intro _ p hp hpu
    exact List.count_eq_one_of_mem (nodup_followed_posts st u)
      ((mem_followed_posts st u p).mpr ⟨hp, Or.inl hpu⟩)
  · intro h0
    have hrel : followedRelCount st u.id u.id = 0 :=
      Nat.le_zero.mp (h0 ▸ followedRelCount_le_edgeCount st u.id u.id)
    have hnf : User.is_following st u u = false := by
      simp [User.is_following, hrel]
    rw [follow_eq_append hnf]
    simp

theorem self_follow_feed_counts_own_posts_once_witness :
    (User.followed_posts dbSelf alice).count pSelf = 1 ∧
    (alice.id, alice.id) ∈ (User.follow dbSolo alice alice).followers :=
  ⟨(self_follow_feed_counts_own_posts_once dbSelf alice).1 (by decide) pSelf
     (by decide) (by decide),
   (self_follow_feed_counts_own_posts_once dbSolo alice).2 (by decide)⟩

end Leapfrogg
